import Mathlib

/-!
Shallow embedding of the SSFD seven-segment four-digit display driver
(class SevenSegment, file SSFD.cpp / SSFD.h) and proofs about its
renderers, multiplex cycle, error handling and publish atomicity.
Machine integers are modelled as Nat / Int with explicit clamps and
mod 2^16 where the source casts to uint16_t; the float argument of
setFloat is modelled by exact rationals plus explicit NaN / Inf
constructors; fallible operations return an error code paired with the
new state, mirroring the source.
-/

namespace SSFD

/-- Error codes of SevenSegment::Error in SSFD.h. -/
inductive Error where
  | OK
  | NULL_POINTER
  | INVALID_PIN
  | TIMER_INIT_FAILED
  | NOT_INITIALIZED
  | INVALID_ARGUMENT
deriving DecidableEq, Repr

/-- The PROGMEM lookup table SEGMENT_PATTERNS of SSFD.cpp:
indices 0-9 digit glyphs, 10 blank, 11 decimal point only,
12-37 letters A-Z, 38 space, 39 dash, 40 equals.
Bit layout: bit7=a, 6=b, 5=c, 4=d, 3=e, 2=f, 1=g, 0=dp. -/
def SEGMENT_PATTERNS : List Nat :=
  [ 0b11111100, 0b01100000, 0b11011010, 0b11110010, 0b01100110,
    0b10110110, 0b10111110, 0b11100000, 0b11111110, 0b11110110,
    0b00000000, 0b00000001,
    0b11101110, 0b00111110, 0b10011100, 0b01111010, 0b10011110,
    0b10001110, 0b10111100, 0b01101110, 0b01100000, 0b01111000,
    0b00001110, 0b00011100, 0b10101000, 0b00101010, 0b11111100,
    0b11001110, 0b11110110, 0b00001010, 0b10110110, 0b00011110,
    0b01111100, 0b01110000, 0b01010100, 0b01001110, 0b01110110,
    0b11011010,
    0b00000000, 0b00000010, 0b11000000 ]

/-- SevenSegment::getPattern of SSFD.cpp: map a character to a table
index (digits, letters case-insensitively, space, dash, equals, dot,
default blank), bounds-check the index, and read the table. -/
def getPattern (c : Char) : Nat :=
  let index : Nat :=
    if '0' ≤ c ∧ c ≤ '9' then c.toNat - '0'.toNat
    else if 'A' ≤ c ∧ c ≤ 'Z' then 12 + (c.toNat - 'A'.toNat)
    else if 'a' ≤ c ∧ c ≤ 'z' then 12 + (c.toNat - 'a'.toNat)
    else if c = ' ' then 38
    else if c = '-' then 39
    else if c = '=' then 40
    else if c = '.' then 11
    else 10
  let index := if SEGMENT_PATTERNS.length ≤ index then 10 else index
  SEGMENT_PATTERNS.getD index 0

/-- Digit-glyph component of a segment pattern: bits 7..1, the decimal
point bit masked away. -/
def glyphOf (p : Nat) : Nat := p &&& 0b11111110

/-- Decimal-point component of a segment pattern: bit 0. -/
def dpBit (p : Nat) : Nat := p &&& 1

/-- Decode a digit-glyph component back to the decimal digit it renders.
A blank glyph decodes to 0 (it can only arise from a suppressed leading
zero); otherwise the glyph is looked up among the ten digit glyphs. -/
def decodeDigit (g : Nat) : Nat :=
  if g = 0 then 0 else List.findIdx (fun p => p == g) (SEGMENT_PATTERNS.take 10)

/-- Digit i (0 = leftmost .. 3 = rightmost) of the 4-digit decimal
decomposition computed by the digit-extraction loop of setNumber. -/
def digitOf (value i : Nat) : Nat := value / 10 ^ (3 - i) % 10

/-- Instance state of a SevenSegment object: the four display-pattern
slots plus the mode, blink, error and lifecycle fields of SSFD.h. -/
structure DState where
  patterns : List Nat
  leadingZeros : Bool
  currentDigit : Nat
  blinkEnabled : Bool
  blinkStateOn : Bool
  lastError : Error
  isrActive : Bool
deriving DecidableEq, Repr

/-- State established by the SevenSegment constructor: blank display,
leading zeros shown, cursor 0, blink disabled with phase on, no error,
ISR inactive. -/
def initState : DState :=
  { patterns := [0, 0, 0, 0], leadingZeros := true, currentDigit := 0,
    blinkEnabled := false, blinkStateOn := true, lastError := Error.OK,
    isrActive := false }

/-- SevenSegment::getLastError of SSFD.h. -/
def getLastError (st : DState) : Error := st.lastError

/-- Glyph part of one iteration of the pattern-building loop of
setNumber: the digit glyph, replaced by the blank pattern when the
suppression condition of the source holds. -/
def slotGlyphPart (lz : Bool) (i digit : Nat) (isLeading : Bool) : Nat :=
  if lz = false ∧ digit = 0 ∧ isLeading = true ∧ i < 3 then
    SEGMENT_PATTERNS.getD 10 0
  else SEGMENT_PATTERNS.getD digit 0

/-- Full pattern of one iteration of the loop of setNumber: the glyph
part, with the decimal-point pattern ORed in when this slot is the
requested decimal-point position. -/
def slotPattern (lz : Bool) (dp : Int) (i digit : Nat) (isLeading : Bool) : Nat :=
  if (i : Int) = dp ∧ 0 ≤ dp then
    slotGlyphPart lz i digit isLeading ||| SEGMENT_PATTERNS.getD 11 0
  else slotGlyphPart lz i digit isLeading

/-- Update of the isLeading flag in one iteration of the loop of
setNumber, following the if / else-if chain of the source. -/
def slotLeading (i digit : Nat) (isLeading : Bool) (lz : Bool) : Bool :=
  if lz = false ∧ digit = 0 ∧ isLeading = true ∧ i < 3 then isLeading
  else if digit ≠ 0 ∨ isLeading = false ∨ i = 3 then false
  else isLeading

/-- The four patterns computed by SevenSegment::setNumber: clamp the
value to 9999, normalize an out-of-range decimal-point position to -1,
extract the four decimal digits, and run the pattern-building loop. -/
def setNumberPatterns (lz : Bool) (value0 : Nat) (dp0 : Int) : List Nat :=
  let value := if 9999 < value0 then 9999 else value0
  let dp := if dp0 < -1 ∨ 3 < dp0 then -1 else dp0
  let d0 := digitOf value 0
  let d1 := digitOf value 1
  let d2 := digitOf value 2
  let d3 := digitOf value 3
  let l0 := true
  let l1 := slotLeading 0 d0 l0 lz
  let l2 := slotLeading 1 d1 l1 lz
  let l3 := slotLeading 2 d2 l2 lz
  [slotPattern lz dp 0 d0 l0, slotPattern lz dp 1 d1 l1,
   slotPattern lz dp 2 d2 l2, slotPattern lz dp 3 d3 l3]

/-- SevenSegment::setNumber: write the four computed patterns into the
display slots (the write is wrapped in cli / sei in the source; the
interleaving model below makes that explicit). -/
def setNumber (st : DState) (value : Nat) (dp : Int) : DState :=
  { st with patterns := setNumberPatterns st.leadingZeros value dp }

example : setNumberPatterns true 1234 (-1) = [96, 218, 242, 102] := by decide
example : setNumberPatterns true 125 2 = [252, 96, 219, 182] := by decide
example : setNumberPatterns false 5 (-1) = [0, 0, 0, 182] := by decide

/-- The four patterns computed by SevenSegment::setText for an accepted
string: right-pad with spaces to 4 characters and map each through the
pattern table. -/
def setTextPatterns (t : List Char) : List Nat :=
  ((t ++ [' ', ' ', ' ', ' ']).take 4).map getPattern

/-- SevenSegment::setText: NULL_POINTER on a missing string; the
length is stored into a uint8_t, so it is strlen mod 256, and
INVALID_ARGUMENT is returned when that wrapped length exceeds 4 (both
failures leave the display untouched); otherwise strncpy copies the
first wrapped-length characters over the space-filled buffer, which is
mapped and stored. The source returns the error code without writing
the lastError field. -/
def setText (st : DState) (text : Option (List Char)) : Error × DState :=
  match text with
  | none => (Error.NULL_POINTER, st)
  | some t =>
    let len := t.length % 256
    if 4 < len then (Error.INVALID_ARGUMENT, st)
    else (Error.OK, { st with patterns := setTextPatterns (t.take len) })

/-- The four raw patterns read by SevenSegment::setSegments from the
caller array. -/
def setSegmentsPatterns (l : List Nat) : List Nat :=
  [l.getD 0 0, l.getD 1 0, l.getD 2 0, l.getD 3 0]

/-- SevenSegment::setSegments: silently return on a null pattern array,
otherwise copy the four raw patterns into the display slots. -/
def setSegments (st : DState) (ps : Option (List Nat)) : DState :=
  match ps with
  | none => st
  | some l => { st with patterns := setSegmentsPatterns l }

/-- SevenSegment::setHundredths: clamp to 9999, replace an out-of-range
decimal-point position by 2, and delegate to setNumber. -/
def setHundredths (st : DState) (hundredths : Nat) (dp : Int) : DState :=
  let h := if 9999 < hundredths then 9999 else hundredths
  let dp2 := if dp < -1 ∨ 3 < dp then 2 else dp
  setNumber st h dp2

/-- Float argument of setFloat: NaN, a signed infinity, or a finite
value modelled as an exact rational. -/
inductive FloatVal where
  | nan : FloatVal
  | inf : Bool → FloatVal
  | finite : ℚ → FloatVal
deriving DecidableEq, Repr

/-- Number and decimal-point position computed by the negative branch
of setFloat for -100 < value < 0: round the magnitude times 100
(resp. 10) when the magnitude is below (resp. at or above) 10; roundf
on a nonnegative argument is floor of x + 1/2, and the uint16_t cast is
mod 2^16. -/
def negMagNum (q : ℚ) : Nat × Int :=
  if -10 < q then ((Int.toNat ⌊(-q) * 100 + 1 / 2⌋) % 65536, 1)
  else ((Int.toNat ⌊(-q) * 10 + 1 / 2⌋) % 65536, 2)

/-- Number and decimal-point position computed by the nonnegative
branch of setFloat: choose 1-4 integer digits from the truncated value,
scale by 10 to the number of remaining decimal places, round, cast to
uint16_t and clamp to 9999; no decimal point when all four digits are
integer digits. -/
def posNumDp (q : ℚ) : Nat × Int :=
  let intPart : Int := ⌊q⌋
  let numIntDigits : Nat :=
    if 1000 ≤ intPart then 4
    else if 100 ≤ intPart then 3
    else if 10 ≤ intPart then 2
    else 1
  let numDecimals : Nat := 4 - numIntDigits
  let dpP : Int := if (numIntDigits : Int) - 1 = 3 then -1 else (numIntDigits : Int) - 1
  let num : Nat := (Int.toNat ⌊q * (10 : ℚ) ^ numDecimals + 1 / 2⌋) % 65536
  let num := if 9999 < num then 9999 else num
  (num, dpP)

/-- SevenSegment::setFloat: NaN / Inf display the Err text and store
INVALID_ARGUMENT; a negative value at or below -100 displays the -999
text; a negative value above -100 renders the scaled magnitude through
setNumber and then overwrites slot 0 with the minus glyph; a
nonnegative value delegates its scaled rounding to setNumber. All
branches store the returned code in lastError. -/
def setFloat (st : DState) (v : FloatVal) : Error × DState :=
  match v with
  | FloatVal.nan =>
      let st1 := (setText st (some ['E', 'r', 'r', ' '])).2
      (Error.INVALID_ARGUMENT, { st1 with lastError := Error.INVALID_ARGUMENT })
  | FloatVal.inf _ =>
      let st1 := (setText st (some ['E', 'r', 'r', ' '])).2
      (Error.INVALID_ARGUMENT, { st1 with lastError := Error.INVALID_ARGUMENT })
  | FloatVal.finite q =>
    if q < 0 then
      if q ≤ -100 then
        let st1 := (setText st (some ['-', '9', '9', '9'])).2
        (Error.OK, { st1 with lastError := Error.OK })
      else
        let nd := negMagNum q
        let st1 := setNumber st nd.1 nd.2
        let st2 := { st1 with patterns := st1.patterns.set 0 (getPattern '-') }
        (Error.OK, { st2 with lastError := Error.OK })
    else
      let nd := posNumDp q
      let st1 := setNumber st nd.1 nd.2
      (Error.OK, { st1 with lastError := Error.OK })

/-- Pin validation loop of SevenSegment::begin over the first n entries
of a pin array: every pin must be at most MAX_PIN = 53. -/
def pinsValid (pins : List Nat) (n : Nat) : Bool :=
  (List.range n).all (fun i => pins.getD i 0 ≤ 53)

/-- SevenSegment::begin: NULL_POINTER if either pin array pointer is
null, INVALID_PIN if any of the 8 segment or 4 digit pins is out of
range, otherwise configure the pins and timer, mark the ISR active and
store OK. Every exit stores its code in lastError. -/
def beginOp (segPins digPins : Option (List Nat)) (st : DState) : Error × DState :=
  match segPins, digPins with
  | none, _ => (Error.NULL_POINTER, { st with lastError := Error.NULL_POINTER })
  | some _, none => (Error.NULL_POINTER, { st with lastError := Error.NULL_POINTER })
  | some sp, some dgp =>
    if pinsValid sp 8 = false then
      (Error.INVALID_PIN, { st with lastError := Error.INVALID_PIN })
    else if pinsValid dgp 4 = false then
      (Error.INVALID_PIN, { st with lastError := Error.INVALID_PIN })
    else
      (Error.OK, { st with lastError := Error.OK, isrActive := true })

/-- A write of one GPIO level to one pin, as performed by digitalWrite. -/
inductive PinEvent where
  | write (pin : Nat) (level : Bool)
deriving DecidableEq, Repr

/-- SevenSegment::multiplex: switch the previous digit common line off,
advance the cursor modulo 4, and, unless blinking with the phase off,
drive the 8 segment lines from the bits of the new slot pattern and
enable the new digit common line. Returns the new state and the pin
writes performed. -/
def multiplex (segPins digPins : List Nat) (st : DState) : DState × List PinEvent :=
  let prev := st.currentDigit
  let offPrev := PinEvent.write (digPins.getD prev 0) false
  let cur := (prev + 1) % 4
  let st1 := { st with currentDigit := cur }
  if st.blinkEnabled = true ∧ st.blinkStateOn = false then (st1, [offPrev])
  else
    let pattern := st1.patterns.getD cur 0
    let segEvents := (List.range 8).map (fun bit =>
      PinEvent.write (segPins.getD bit 0) (pattern.testBit (7 - bit)))
    (st1, offPrev :: segEvents ++ [PinEvent.write (digPins.getD cur 0) true])

/-- Iterated multiplex ticks: the display state after n timer ticks. -/
def ticksN (segPins digPins : List Nat) (st : DState) : Nat → DState
  | 0 => st
  | n + 1 => (multiplex segPins digPins (ticksN segPins digPins st n)).1

/-- Hardware side effects of the blocking testWiring diagnostic:
interrupt flag changes, timer interrupt mask changes, pin writes and
delays. -/
inductive HwEvent where
  | pinWrite (pin : Nat) (level : Bool)
  | delayMs (ms : Nat)
  | timerMask (enabled : Bool)
  | intOff
  | intOn
deriving DecidableEq, Repr

/-- SevenSegment::testWiring: return immediately when the ISR is not
active; otherwise mask the timer interrupt, light all digit lines,
pulse each of the 8 segment lines with a delay, restore everything and
unmask the timer interrupt. The instance state is never modified. -/
def testWiring (segPins digPins : List Nat) (st : DState) (d : Nat) :
    DState × List HwEvent :=
  if st.isrActive = false then (st, [])
  else
    let evs :=
      [HwEvent.intOff, HwEvent.timerMask false]
      ++ ((List.range 4).map fun i => HwEvent.pinWrite (digPins.getD i 0) true)
      ++ ((List.range 8).map fun j =>
            [HwEvent.pinWrite (segPins.getD j 0) true, HwEvent.intOn,
             HwEvent.delayMs d, HwEvent.intOff,
             HwEvent.pinWrite (segPins.getD j 0) false]).flatten
      ++ ((List.range 4).map fun i => HwEvent.pinWrite (digPins.getD i 0) false)
      ++ [HwEvent.timerMask true, HwEvent.intOn]
    (st, evs)

/-- Micro-operations of a renderer call as seen by the timer interrupt:
disable interrupts (cli), enable interrupts (sei), or store one byte
into one display slot. -/
inductive MicroOp where
  | cli
  | sei
  | writeSlot (i : Nat) (v : Nat)
deriving DecidableEq, Repr

/-- Shared state between the application context and the interrupt
context: the display slots and the interrupt-enable flag. -/
structure CState where
  patterns : List Nat
  intEnabled : Bool
deriving DecidableEq, Repr

/-- Effect of one application micro-operation on the shared state. -/
def applyOp (s : CState) : MicroOp → CState
  | MicroOp.cli => { s with intEnabled := false }
  | MicroOp.sei => { s with intEnabled := true }
  | MicroOp.writeSlot i v => { s with patterns := s.patterns.set i v }

/-- Run an interleaving of application micro-operations with multiplex
ticks. The schedule chooses at each step an application step (true) or
a tick (false); a tick is only possible while interrupts are enabled
and records the display slots it observes; a schedule that ticks while
interrupts are disabled, or runs the application past the end of its
program, is rejected. -/
def crun (s : CState) : List MicroOp → List Bool → Option (CState × List (List Nat))
  | _, [] => some (s, [])
  | prog, false :: rest =>
      if s.intEnabled = true then
        match crun s prog rest with
        | some (s2, obs) => some (s2, s.patterns :: obs)
        | none => none
      else none
  | [], true :: _ => none
  | op :: prog, true :: rest => crun (applyOp s op) prog rest

/-- Apply a list of slot writes to the display slots. -/
def applyWrites (ps : List Nat) (ws : List (Nat × Nat)) : List Nat :=
  ws.foldl (fun acc w => acc.set w.1 w.2) ps

/-- Micro-operations of one interrupt-disabled write block:
cli, the slot writes, sei. -/
def blockOps (ws : List (Nat × Nat)) : List MicroOp :=
  MicroOp.cli :: (ws.map fun w => MicroOp.writeSlot w.1 w.2) ++ [MicroOp.sei]

/-- Micro-operations of a sequence of interrupt-disabled write blocks. -/
def blocksProgram : List (List (Nat × Nat)) → List MicroOp
  | [] => []
  | ws :: rest => blockOps ws ++ blocksProgram rest

/-- The four slot writes publishing a 4-pattern list, in slot order,
as the write loops of the renderers perform them. -/
def publishWrites (ps : List Nat) : List (Nat × Nat) :=
  [(0, ps.getD 0 0), (1, ps.getD 1 0), (2, ps.getD 2 0), (3, ps.getD 3 0)]

/-- Micro-operation trace of setNumber: one atomic block publishing the
four computed patterns. -/
def setNumberProgram (lz : Bool) (v : Nat) (dp : Int) : List MicroOp :=
  blocksProgram [publishWrites (setNumberPatterns lz v dp)]

/-- Micro-operation trace of setText: empty on the failure paths
(nothing is written), otherwise one atomic block publishing the mapped
characters of the uint8_t-wrapped prefix, mirroring setText. -/
def setTextProgram (t : Option (List Char)) : List MicroOp :=
  match t with
  | none => []
  | some s =>
    let len := s.length % 256
    if 4 < len then []
    else blocksProgram [publishWrites (setTextPatterns (s.take len))]

/-- Micro-operation trace of setSegments: empty on a null array,
otherwise one atomic block publishing the four raw patterns. -/
def setSegmentsProgram (ps : Option (List Nat)) : List MicroOp :=
  match ps with
  | none => []
  | some l => blocksProgram [publishWrites (setSegmentsPatterns l)]

/-- Micro-operation trace of setHundredths: the setNumber trace at the
clamped value and substituted decimal-point position. -/
def setHundredthsProgram (lz : Bool) (hundredths : Nat) (dp : Int) : List MicroOp :=
  setNumberProgram lz (if 9999 < hundredths then 9999 else hundredths)
    (if dp < -1 ∨ 3 < dp then 2 else dp)

/-- Micro-operation trace of setFloat. NaN / Inf and the at-or-below
-100 branch publish a text in one atomic block; a negative value above
-100 publishes the magnitude digits in one atomic block and then the
minus glyph overwrite of slot 0 in a second, separate atomic block,
exactly as the source re-enables interrupts between setNumber and the
slot 0 store; a nonnegative value publishes one atomic block. -/
def setFloatProgram (lz : Bool) (v : FloatVal) : List MicroOp :=
  match v with
  | FloatVal.nan => blocksProgram [publishWrites (setTextPatterns ['E', 'r', 'r', ' '])]
  | FloatVal.inf _ => blocksProgram [publishWrites (setTextPatterns ['E', 'r', 'r', ' '])]
  | FloatVal.finite q =>
    if q < 0 then
      if q ≤ -100 then blocksProgram [publishWrites (setTextPatterns ['-', '9', '9', '9'])]
      else
        let nd := negMagNum q
        blocksProgram [publishWrites (setNumberPatterns lz nd.1 nd.2),
                       [(0, getPattern '-')]]
    else
      let nd := posNumDp q
      blocksProgram [publishWrites (setNumberPatterns lz nd.1 nd.2)]

/-- Bit facts about the ten digit glyphs of the table: the glyph
component is the pattern itself, the decimal-point bit is clear until
ORed in, and decodeDigit inverts the glyph map. -/
lemma digit_glyph_facts : ∀ d, d < 10 →
    glyphOf (SEGMENT_PATTERNS.getD d 0) = SEGMENT_PATTERNS.getD d 0 ∧
    glyphOf (SEGMENT_PATTERNS.getD d 0 ||| SEGMENT_PATTERNS.getD 11 0) =
      SEGMENT_PATTERNS.getD d 0 ∧
    dpBit (SEGMENT_PATTERNS.getD d 0) = 0 ∧
    dpBit (SEGMENT_PATTERNS.getD d 0 ||| SEGMENT_PATTERNS.getD 11 0) = 1 ∧
    decodeDigit (SEGMENT_PATTERNS.getD d 0) = d := by decide

/-- The glyph component written by one slot of the setNumber loop:
blank under the suppression condition of the source, otherwise the
digit glyph, independently of the decimal-point position. -/
lemma slotPattern_glyph (lz : Bool) (dp : Int) (i d : Nat) (l : Bool) (hd : d < 10) :
    glyphOf (slotPattern lz dp i d l) =
      if lz = false ∧ d = 0 ∧ l = true ∧ i < 3 then 0
      else SEGMENT_PATTERNS.getD d 0 := by
  unfold slotPattern slotGlyphPart
  by_cases hsup : lz = false ∧ d = 0 ∧ l = true ∧ i < 3 <;>
    by_cases hdp : (i : Int) = dp ∧ 0 ≤ dp <;>
      simp only [hsup, hdp, if_pos, if_neg, if_true, if_false, not_false_iff]
  · decide
  · decide
  · exact (digit_glyph_facts d hd).2.1
  · exact (digit_glyph_facts d hd).1

/-- The slot written by the setNumber loop decodes back to its digit:
a suppressed slot is blank and its digit is necessarily 0, any other
slot carries the digit glyph. -/
lemma slotPattern_decode (lz : Bool) (dp : Int) (i d : Nat) (l : Bool) (hd : d < 10) :
    decodeDigit (glyphOf (slotPattern lz dp i d l)) = d := by
  rw [slotPattern_glyph lz dp i d l hd]
  by_cases hsup : lz = false ∧ d = 0 ∧ l = true ∧ i < 3
  · rw [if_pos hsup, hsup.2.1]; decide
  · rw [if_neg hsup]; exact (digit_glyph_facts d hd).2.2.2.2

/-- The decimal-point bit written by one slot of the setNumber loop is
set exactly when this slot is the requested nonnegative position. -/
lemma slotPattern_dpBit (lz : Bool) (dp : Int) (i d : Nat) (l : Bool) (hd : d < 10) :
    dpBit (slotPattern lz dp i d l) =
      if (i : Int) = dp ∧ 0 ≤ dp then 1 else 0 := by
  unfold slotPattern slotGlyphPart
  by_cases hsup : lz = false ∧ d = 0 ∧ l = true ∧ i < 3 <;>
    by_cases hdp : (i : Int) = dp ∧ 0 ≤ dp <;>
      simp only [hsup, hdp, if_pos, if_neg, if_true, if_false, not_false_iff]
  · decide
  · decide
  · exact (digit_glyph_facts d hd).2.2.2.1
  · exact (digit_glyph_facts d hd).2.2.1

/-- For the first three slots the isLeading flag stays set exactly while
every digit seen so far is zero. -/
lemma slotLeading_eq (i d : Nat) (l lz : Bool) (hi : i < 3) :
    slotLeading i d l lz = (l && decide (d = 0)) := by
  unfold slotLeading
  have hne : i ≠ 3 := Nat.ne_of_lt hi
  rcases l <;> rcases lz <;> by_cases hd0 : d = 0 <;>
    simp [hd0, hi, hne]

/-- Each digit of the decomposition is below 10. -/
lemma digitOf_lt (value i : Nat) : digitOf value i < 10 :=
  Nat.mod_lt _ (by norm_num)

/-- The pattern list built by setNumber always has exactly 4 entries. -/
lemma setNumberPatterns_length (lz : Bool) (v : Nat) (dp : Int) :
    (setNumberPatterns lz v dp).length = 4 := rfl

/-- The pattern list built by setNumber is never empty. -/
lemma setNumberPatterns_ne_nil (lz : Bool) (v : Nat) (dp : Int) :
    setNumberPatterns lz v dp ≠ [] := by
  intro h
  have := setNumberPatterns_length lz v dp
  rw [h] at this
  simp at this

/-- Each slot built by setNumber decodes back to its decimal digit. -/
lemma setNumberPatterns_decode (lz : Bool) (value : Nat) (dp : Int)
    (hv : value ≤ 9999) :
    ∀ i, i < 4 →
      decodeDigit (glyphOf ((setNumberPatterns lz value dp).getD i 0)) =
        digitOf value i := by
  have hclamp : (if 9999 < value then 9999 else value) = value := if_neg (by omega)
  intro i hi
  interval_cases i <;>
    simp only [setNumberPatterns, hclamp, List.getD, List.get?, Option.getD] <;>
    exact slotPattern_decode _ _ _ _ _ (digitOf_lt _ _)

/-- Each slot built by setNumber carries the decimal-point bit exactly
when the slot index equals the (in-range) requested position. -/
lemma setNumberPatterns_dpBit (lz : Bool) (value : Nat) (dp : Int)
    (hdp1 : -1 ≤ dp) (hdp2 : dp ≤ 3) :
    ∀ i, i < 4 →
      (dpBit ((setNumberPatterns lz value dp).getD i 0) = 1 ↔ (i : Int) = dp) := by
  have hdpn : (if dp < -1 ∨ 3 < dp then -1 else dp) = dp := by
    rw [if_neg]; push_neg; omega
  intro i hi
  have key : ∀ l : Bool, ∀ j : Nat, j < 4 →
      (dpBit (slotPattern lz dp j (digitOf (if 9999 < value then 9999 else value) j) l)
          = 1 ↔ (j : Int) = dp) := by
    intro l j _
    rw [slotPattern_dpBit _ _ _ _ _ (digitOf_lt _ _)]
    split_ifs with h
    · exact iff_of_true rfl h.1
    · refine iff_of_false (by norm_num) fun he => h ⟨he, by omega⟩
  interval_cases i <;>
    simp only [setNumberPatterns, hdpn, List.getD, List.get?, Option.getD] <;>
    exact key _ _ (by norm_num)

/-- C1: for every value in 0..9999 and every dpPosition in -1..3,
setNumber stores exactly 4 segment patterns; their digit-glyph
components decode back to the four decimal digits of the value with the
leftmost digit in slot 0, and the decimal-point bit is set on exactly
the slot equal to dpPosition, hence on no slot when dpPosition is -1. -/
theorem c1_setNumber_digits_and_dp (st : DState) (value : Nat) (dp : Int)
    (hv : value ≤ 9999) (hdp1 : -1 ≤ dp) (hdp2 : dp ≤ 3) :
    ((setNumber st value dp).patterns.length = 4) ∧
    (∀ d, d < 10 → decodeDigit (SEGMENT_PATTERNS.getD d 0) = d) ∧
    (∀ i, i < 4 →
      decodeDigit (glyphOf ((setNumber st value dp).patterns.getD i 0)) =
        digitOf value i) ∧
    (∀ i, i < 4 →
      (dpBit ((setNumber st value dp).patterns.getD i 0) = 1 ↔ (i : Int) = dp)) := by
  refine ⟨setNumberPatterns_length _ _ _, ?_, ?_, ?_⟩
  · intro d hd; exact (digit_glyph_facts d hd).2.2.2.2
  · exact setNumberPatterns_decode st.leadingZeros value dp hv
  · exact setNumberPatterns_dpBit st.leadingZeros value dp hdp1 hdp2

/-- Concrete instance of C1: setNumber 1234 with decimal point at slot 2
from the initial state decodes to digits 1,2,3,4 and carries the
decimal-point bit on slot 2. -/
theorem c1_witness :
    decodeDigit (glyphOf ((setNumber initState 1234 2).patterns.getD 0 0)) = 1 ∧
    decodeDigit (glyphOf ((setNumber initState 1234 2).patterns.getD 3 0)) = 4 ∧
    dpBit ((setNumber initState 1234 2).patterns.getD 2 0) = 1 := by
  have h := c1_setNumber_digits_and_dp initState 1234 2 (by norm_num)
    (by norm_num) (by norm_num)
  refine ⟨?_, ?_, ?_⟩
  · rw [h.2.2.1 0 (by norm_num)]; decide
  · rw [h.2.2.1 3 (by norm_num)]; decide
  · exact (h.2.2.2 2 (by norm_num)).mpr (by norm_num)

/-- C5 counterexample: in the state left by the constructor no
suppression has been enabled via setLeadingZeros, yet setNumber 5
renders the leading-zero slot 0 as the full digit-0 glyph 0b11111100,
not blanked, refuting the claim that leading zeros are blanked unless
suppression is enabled. -/
theorem c5_counterexample :
    initState.leadingZeros = true ∧
    digitOf 5 0 = 0 ∧
    glyphOf ((setNumber initState 5 (-1)).patterns.getD 0 0) = 0b11111100 ∧
    (0b11111100 : Nat) ≠ 0 := by decide

/-- C5 amended: setNumber blanks a leading zero digit (every zero digit
with only zeros before it, except the rightmost slot) exactly when
leading zeros have been disabled via setLeadingZeros false; otherwise,
including in the default state, such digits are rendered as the digit-0
glyph like any other digit. -/
theorem c5_amended_suppression (st : DState) (value : Nat) (dp : Int)
    (hv : value ≤ 9999) :
    ∀ i, i < 4 →
      glyphOf ((setNumber st value dp).patterns.getD i 0) =
        if st.leadingZeros = false ∧ (∀ j, j ≤ i → digitOf value j = 0) ∧ i < 3
        then 0
        else SEGMENT_PATTERNS.getD (digitOf value i) 0 := by
  have hclamp : (if 9999 < value then 9999 else value) = value := if_neg (by omega)
  intro i hi
  interval_cases i
  · simp only [setNumber, setNumberPatterns, hclamp, List.getD, List.get?,
      Option.getD]
    rw [slotPattern_glyph _ _ _ _ _ (digitOf_lt _ _)]
    refine if_congr ?_ rfl rfl
    constructor
    · rintro ⟨h1, h2, -, -⟩
      exact ⟨h1, fun j hj => by interval_cases j; exact h2, by norm_num⟩
    · rintro ⟨h1, h2, -⟩
      exact ⟨h1, h2 0 le_rfl, rfl, by norm_num⟩
  · simp only [setNumber, setNumberPatterns, hclamp, List.getD, List.get?,
      Option.getD]
    rw [slotLeading_eq 0 _ true st.leadingZeros (by norm_num),
      slotPattern_glyph _ _ _ _ _ (digitOf_lt _ _)]
    refine if_congr ?_ rfl rfl
    constructor
    · rintro ⟨h1, h2, h3, -⟩
      have hd0 : digitOf value 0 = 0 := by simpa using h3
      exact ⟨h1, fun j hj => by interval_cases j <;> simp [hd0, h2], by norm_num⟩
    · rintro ⟨h1, h2, -⟩
      exact ⟨h1, h2 1 le_rfl, by simp [h2 0 (by norm_num)], by norm_num⟩
  · simp only [setNumber, setNumberPatterns, hclamp, List.getD, List.get?,
      Option.getD]
    rw [slotLeading_eq 0 _ true st.leadingZeros (by norm_num),
      slotLeading_eq 1 _ _ st.leadingZeros (by norm_num),
      slotPattern_glyph _ _ _ _ _ (digitOf_lt _ _)]
    refine if_congr ?_ rfl rfl
    constructor
    · rintro ⟨h1, h2, h3, -⟩
      have hd01 : digitOf value 0 = 0 ∧ digitOf value 1 = 0 := by
        constructor <;> [skip; skip] <;> simp at h3 <;> tauto
      exact ⟨h1, fun j hj => by interval_cases j <;> simp [hd01.1, hd01.2, h2],
        by norm_num⟩
    · rintro ⟨h1, h2, -⟩
      exact ⟨h1, h2 2 le_rfl,
        by simp [h2 0 (by norm_num), h2 1 (by norm_num)], by norm_num⟩
  · simp only [setNumber, setNumberPatterns, hclamp, List.getD, List.get?,
      Option.getD]
    rw [slotPattern_glyph _ _ _ _ _ (digitOf_lt _ _)]
    refine if_congr ?_ rfl rfl
    simp

/-- Concrete instance of the amended C5: with leading zeros disabled,
setNumber 5 blanks slot 0 and still renders the rightmost digit. -/
theorem c5_witness :
    glyphOf ((setNumber { initState with leadingZeros := false } 5 (-1)).patterns.getD 0 0)
      = 0 ∧
    glyphOf ((setNumber { initState with leadingZeros := false } 5 (-1)).patterns.getD 3 0)
      = SEGMENT_PATTERNS.getD 5 0 := by
  have h := c5_amended_suppression { initState with leadingZeros := false } 5 (-1)
    (by norm_num)
  constructor
  · rw [h 0 (by norm_num), if_pos]
    exact ⟨rfl, fun j hj => by interval_cases j; decide, by norm_num⟩
  · rw [h 3 (by norm_num), if_neg]
    · decide
    · rintro ⟨-, -, h3⟩; exact absurd h3 (by norm_num)

/-- C9: a dpPosition outside -1..3 makes setNumber behave exactly like
dpPosition -1, with no decimal-point bit on any slot, while
setHundredths substitutes position 2 for such a dpPosition. -/
theorem c9_dp_out_of_range (st : DState) (value : Nat) (dp : Int)
    (h : dp < -1 ∨ 3 < dp) :
    setNumber st value dp = setNumber st value (-1) ∧
    (∀ i, i < 4 → dpBit ((setNumber st value dp).patterns.getD i 0) = 0) ∧
    setHundredths st value dp = setNumber st value 2 := by
  have h1 : setNumberPatterns st.leadingZeros value dp =
      setNumberPatterns st.leadingZeros value (-1) := by
    unfold setNumberPatterns
    rw [if_pos h, ite_self]
  have hcl : (if 9999 < (if 9999 < value then 9999 else value) then 9999
      else (if 9999 < value then 9999 else value)) =
      (if 9999 < value then 9999 else value) := by
    split_ifs <;> omega
  refine ⟨?_, ?_, ?_⟩
  · simp [setNumber, h1]
  · intro i hi
    interval_cases i <;>
      simp only [setNumber, setNumberPatterns, if_pos h, List.getD, List.get?,
        Option.getD] <;>
      rw [slotPattern_dpBit _ _ _ _ _ (digitOf_lt _ _), if_neg] <;>
      · rintro ⟨-, hc⟩; exact absurd hc (by norm_num)
  · simp only [setHundredths, if_pos h, setNumber, setNumberPatterns, hcl]

/-- Concrete instance of C9 at dpPosition 5. -/
theorem c9_witness :
    setNumber initState 42 5 = setNumber initState 42 (-1) ∧
    dpBit ((setNumber initState 42 5).patterns.getD 1 0) = 0 ∧
    setHundredths initState 42 5 = setNumber initState 42 2 := by
  have h := c9_dp_out_of_range initState 42 5 (by norm_num)
  exact ⟨h.1, h.2.1 1 (by norm_num), h.2.2⟩

set_option maxRecDepth 8000 in
/-- C4 failing input: the length check of setText stores strlen into a
uint8_t, so the stored length is strlen mod 256, and the check that is
meant to reject every string longer than 4 characters (per the SSFD.h
contract that strlen must be at most 4, returning an error code when
the text is invalid) is bypassed whenever strlen mod 256 is at most 4.
Evaluated on the embedding: a 256-character string exceeds 4 yet is
accepted with OK, and it clobbers the previously displayed 1234 with
four blanks; a 260-character string is accepted and renders its first
four characters; a 7-character string is still rejected correctly with
the state unchanged, showing the check works only below the wrap. -/
theorem c4_setText_length_wrap :
    (4 < (List.replicate 256 'A').length) ∧
    (setText (setNumber initState 1234 (-1)) (some (List.replicate 256 'A'))).1 =
      Error.OK ∧
    (setText (setNumber initState 1234 (-1))
      (some (List.replicate 256 'A'))).2.patterns = [0, 0, 0, 0] ∧
    (setNumber initState 1234 (-1)).patterns ≠ [0, 0, 0, 0] ∧
    (4 < (List.replicate 260 'A').length) ∧
    (setText initState (some (List.replicate 260 'A'))).1 = Error.OK ∧
    (setText initState (some (List.replicate 260 'A'))).2.patterns =
      [getPattern 'A', getPattern 'A', getPattern 'A', getPattern 'A'] ∧
    setText initState (some ['T', 'O', 'O', 'L', 'O', 'N', 'G']) =
      (Error.INVALID_ARGUMENT, initState) := by decide

/-- C6 counterexample: from the initial state, where the stored code is
OK, setText on a 7-character string returns INVALID_ARGUMENT, yet
getLastError immediately afterwards still reports OK, so a fallible
operation exists whose result is not stored. -/
theorem c6_counterexample :
    (setText initState (some ['T', 'O', 'O', 'L', 'O', 'N', 'G'])).1 =
      Error.INVALID_ARGUMENT ∧
    getLastError (setText initState (some ['T', 'O', 'O', 'L', 'O', 'N', 'G'])).2 =
      Error.OK ∧
    Error.INVALID_ARGUMENT ≠ Error.OK := by decide

/-- C6 amended: begin and setFloat store their own result code, so
getLastError right after either returns exactly what the call returned,
but setText never updates the stored code, so getLastError after
setText returns whatever was stored before the call. -/
theorem c6_amended_lastError (segPins digPins : Option (List Nat)) (st : DState)
    (fv : FloatVal) (t : Option (List Char)) :
    (getLastError (beginOp segPins digPins st).2 = (beginOp segPins digPins st).1) ∧
    (getLastError (setFloat st fv).2 = (setFloat st fv).1) ∧
    (getLastError (setText st t).2 = st.lastError) := by
  refine ⟨?_, ?_, ?_⟩
  · rcases segPins with - | sp <;> rcases digPins with - | dgp
    · rfl
    · rfl
    · rfl
    · simp only [beginOp, getLastError]
      split_ifs <;> rfl
  · rcases fv with - | b | q
    · rfl
    · rfl
    · simp only [setFloat, getLastError]
      split_ifs <;> rfl
  · rcases t with - | s
    · rfl
    · simp only [setText, getLastError]
      split_ifs <;> rfl

/-- C8: setSegments with a null pattern array is a silent no-op: the
state, all 4 display slots and the stored error code included, is
returned unchanged, and no error code is produced. -/
theorem c8_setSegments_null_noop (st : DState) :
    setSegments st none = st ∧ (setSegments st none).lastError = st.lastError :=
  ⟨rfl, rfl⟩

/-- C10: when the ISR-active flag is false, testWiring returns at once:
it performs no pin write, no delay, no interrupt or timer-mask change,
and leaves the instance state untouched. -/
theorem c10_testWiring_uninitialized (segPins digPins : List Nat) (st : DState)
    (d : Nat) (h : st.isrActive = false) :
    testWiring segPins digPins st d = (st, []) := by
  simp [testWiring, h]

/-- Concrete instance of C10 at the constructor state and the pin
arrays of the examples. -/
theorem c10_witness :
    testWiring [2, 3, 4, 5, 6, 7, 8, 9] [10, 11, 12, 13] initState 500 =
      (initState, []) :=
  c10_testWiring_uninitialized [2, 3, 4, 5, 6, 7, 8, 9] [10, 11, 12, 13]
    initState 500 rfl

/-- One multiplex tick always advances the cursor modulo 4, whatever
the blink flags. -/
lemma multiplex_cursor_step (segPins digPins : List Nat) (s : DState) :
    (multiplex segPins digPins s).1.currentDigit = (s.currentDigit + 1) % 4 := by
  simp only [multiplex]
  split_ifs <;> rfl

/-- C7: every multiplex tick advances the scan cursor modulo 4 exactly
once, for every starting cursor and blink state; when blinking with the
phase off the tick performs only the previous-digit turn-off write,
skipping segment drive and digit enable, and after any nonempty
sequence of ticks the cursor is in 0..3. -/
theorem c7_multiplex_cursor (segPins digPins : List Nat) (st : DState) :
    ((multiplex segPins digPins st).1.currentDigit = (st.currentDigit + 1) % 4) ∧
    (st.blinkEnabled = true → st.blinkStateOn = false →
      (multiplex segPins digPins st).2 =
        [PinEvent.write (digPins.getD st.currentDigit 0) false]) ∧
    (∀ n, 1 ≤ n → (ticksN segPins digPins st n).currentDigit < 4) := by
  refine ⟨multiplex_cursor_step segPins digPins st, ?_, ?_⟩
  · intro h1 h2
    simp [multiplex, h1, h2]
  · intro n hn
    rcases n with - | m
    · omega
    · show (multiplex segPins digPins (ticksN segPins digPins st m)).1.currentDigit < 4
      rw [multiplex_cursor_step]
      exact Nat.mod_lt _ (by norm_num)

/-- A state with blinking enabled, phase off, cursor at digit 2, used
to exercise the blink-off tick path. -/
def blinkOffState : DState :=
  { initState with blinkEnabled := true, blinkStateOn := false, currentDigit := 2 }

/-- Concrete instance of C7: a blink-off tick from cursor 2 advances to
cursor 3 and performs only the single turn-off write of digit pin 12,
and 7 ticks later the cursor is still in range. -/
theorem c7_witness :
    (multiplex [2, 3, 4, 5, 6, 7, 8, 9] [10, 11, 12, 13] blinkOffState).1.currentDigit
      = 3 ∧
    (multiplex [2, 3, 4, 5, 6, 7, 8, 9] [10, 11, 12, 13] blinkOffState).2 =
      [PinEvent.write 12 false] ∧
    (ticksN [2, 3, 4, 5, 6, 7, 8, 9] [10, 11, 12, 13] blinkOffState 7).currentDigit
      < 4 := by
  have h := c7_multiplex_cursor [2, 3, 4, 5, 6, 7, 8, 9] [10, 11, 12, 13]
    blinkOffState
  refine ⟨by rw [h.1]; rfl, ?_, h.2.2 7 (by norm_num)⟩
  have h2 := h.2.1 rfl rfl
  simpa using h2

/-- Overwriting slot 0 leaves every other slot unchanged. -/
lemma getD_set_zero_ne (l : List Nat) (x i : Nat) (hi : i ≠ 0) :
    (l.set 0 x).getD i 0 = l.getD i 0 := by
  rcases l with - | ⟨a, t⟩
  · rfl
  · rcases i with - | j
    · exact absurd rfl hi
    · rfl

/-- Overwriting slot 0 of a nonempty list stores the new value there. -/
lemma getD_set_zero (l : List Nat) (x : Nat) (hl : l ≠ []) :
    (l.set 0 x).getD 0 0 = x := by
  rcases l with - | ⟨a, t⟩
  · exact absurd rfl hl
  · rfl

/-- Bounds on the number and decimal-point position computed by the
negative branch of setFloat for -100 < q < 0: the number fits in four
digits (so setNumber does not clamp) and the position is 1 below
magnitude 10 and 2 otherwise. -/
lemma negMagNum_le (q : ℚ) (_h1 : q < 0) (h2 : -100 < q) :
    (negMagNum q).1 ≤ 9999 ∧
    ((negMagNum q).2 = 1 ∨ (negMagNum q).2 = 2) := by
  unfold negMagNum
  split_ifs with h10
  · refine ⟨?_, Or.inl rfl⟩
    have hb : (-q) * 100 + 1 / 2 < 1001 := by linarith
    have hf : ⌊(-q) * 100 + 1 / 2⌋ < 1001 := Int.floor_lt.mpr (by exact_mod_cast hb)
    have ht : (⌊(-q) * 100 + 1 / 2⌋).toNat ≤ 1000 := by omega
    calc (⌊(-q) * 100 + 1 / 2⌋).toNat % 65536 ≤ (⌊(-q) * 100 + 1 / 2⌋).toNat :=
          Nat.mod_le _ _
      _ ≤ 9999 := by omega
  · refine ⟨?_, Or.inr rfl⟩
    have hb : (-q) * 10 + 1 / 2 < 1001 := by linarith
    have hf : ⌊(-q) * 10 + 1 / 2⌋ < 1001 := Int.floor_lt.mpr (by exact_mod_cast hb)
    have ht : (⌊(-q) * 10 + 1 / 2⌋).toNat ≤ 1000 := by omega
    calc (⌊(-q) * 10 + 1 / 2⌋).toNat % 65536 ≤ (⌊(-q) * 10 + 1 / 2⌋).toNat :=
          Nat.mod_le _ _
      _ ≤ 9999 := by omega

/-- C3: for every negative finite value, setFloat displays the fixed
-999 text when the magnitude is at least 100; otherwise it renders the
magnitude scaled to 2 decimal digits below magnitude 10 and 1 decimal
digit at or above it, as computed by negMagNum, and then overwrites
slot 0 with the minus glyph: slot 0 carries the minus glyph, slots 1..3
decode to the digits of the rounded scaled magnitude, and the
decimal-point bit sits exactly on slot 1 (below 10) or slot 2 (at or
above 10). -/
theorem c3_setFloat_negative (st : DState) (q : ℚ) (hneg : q < 0) :
    (q ≤ -100 → (setFloat st (FloatVal.finite q)).2.patterns =
      [getPattern '-', getPattern '9', getPattern '9', getPattern '9']) ∧
    (-100 < q →
      ((setFloat st (FloatVal.finite q)).2.patterns.length = 4) ∧
      ((setFloat st (FloatVal.finite q)).2.patterns.getD 0 0 = getPattern '-') ∧
      (∀ i, 1 ≤ i → i < 4 →
        decodeDigit (glyphOf ((setFloat st (FloatVal.finite q)).2.patterns.getD i 0))
          = digitOf (negMagNum q).1 i) ∧
      (∀ i, i < 4 →
        (dpBit ((setFloat st (FloatVal.finite q)).2.patterns.getD i 0) = 1 ↔
          (i : Int) = (negMagNum q).2))) := by
  constructor
  · intro h100
    simp only [setFloat, if_pos hneg, if_pos h100, setText, setTextPatterns]
    norm_num
  · intro h100
    have hres : (setFloat st (FloatVal.finite q)).2.patterns =
        (setNumberPatterns st.leadingZeros (negMagNum q).1 (negMagNum q).2).set 0
          (getPattern '-') := by
      simp only [setFloat, if_pos hneg, if_neg (not_le.mpr h100), setNumber]
    obtain ⟨hb, hdp⟩ := negMagNum_le q hneg h100
    have hdp1 : (-1 : Int) ≤ (negMagNum q).2 := by rcases hdp with h | h <;> omega
    have hdp2 : (negMagNum q).2 ≤ 3 := by rcases hdp with h | h <;> omega
    refine ⟨?_, ?_, ?_, ?_⟩
    · rw [hres, List.length_set, setNumberPatterns_length]
    · rw [hres, getD_set_zero _ _ (setNumberPatterns_ne_nil _ _ _)]
    · intro i h1 h4
      rw [hres, getD_set_zero_ne _ _ i (by omega)]
      exact setNumberPatterns_decode _ _ _ hb i h4
    · intro i h4
      rcases Nat.eq_zero_or_pos i with hz | hpos
      · subst hz
        rw [hres, getD_set_zero _ _ (setNumberPatterns_ne_nil _ _ _)]
        refine iff_of_false (by decide) ?_
        rcases hdp with h | h <;> rw [h] <;> norm_num
      · rw [hres, getD_set_zero_ne _ _ i (by omega)]
        exact setNumberPatterns_dpBit _ _ _ hdp1 hdp2 i h4

/-- The negative branch of setFloat at -12.5 rounds the magnitude times
10 to the number 125 with decimal-point position 2. -/
lemma negMagNum_at_minus_half25 : negMagNum ((-25 : ℚ) / 2) = (125, 2) := by
  unfold negMagNum
  rw [if_neg (by norm_num)]
  norm_num
  decide

/-- Concrete instance of C3: setFloat at -12.5 puts the minus glyph in
slot 0, the magnitude digits 1, 2, 5 in slots 1..3, and the
decimal-point bit on slot 2. -/
theorem c3_witness :
    ((-25 : ℚ) / 2 < 0) ∧
    (setFloat initState (FloatVal.finite ((-25 : ℚ) / 2))).2.patterns.getD 0 0 =
      getPattern '-' ∧
    decodeDigit (glyphOf
      ((setFloat initState (FloatVal.finite ((-25 : ℚ) / 2))).2.patterns.getD 1 0)) = 1 ∧
    decodeDigit (glyphOf
      ((setFloat initState (FloatVal.finite ((-25 : ℚ) / 2))).2.patterns.getD 2 0)) = 2 ∧
    decodeDigit (glyphOf
      ((setFloat initState (FloatVal.finite ((-25 : ℚ) / 2))).2.patterns.getD 3 0)) = 5 ∧
    dpBit ((setFloat initState (FloatVal.finite ((-25 : ℚ) / 2))).2.patterns.getD 2 0)
      = 1 := by
  have h := c3_setFloat_negative initState ((-25 : ℚ) / 2) (by norm_num)
  have h2 := h.2 (by norm_num)
  have hn := negMagNum_at_minus_half25
  refine ⟨by norm_num, h2.2.1, ?_, ?_, ?_, ?_⟩
  · rw [h2.2.2.1 1 (by norm_num) (by norm_num), hn]; decide
  · rw [h2.2.2.1 2 (by norm_num) (by norm_num), hn]; decide
  · rw [h2.2.2.1 3 (by norm_num) (by norm_num), hn]; decide
  · exact (h2.2.2.2 2 (by norm_num)).mpr (by rw [hn]; norm_num)

/-- A run with an exhausted program can only tick, so every observation
is the unchanged display. -/
lemma crun_nil_obs : ∀ (sched : List Bool) (s s2 : CState) obs,
    crun s [] sched = some (s2, obs) → ∀ o ∈ obs, o = s.patterns := by
  intro sched
  induction sched with
  | nil =>
    intro s s2 obs h o ho
    simp only [crun, Option.some.injEq, Prod.mk.injEq] at h
    rw [← h.2] at ho
    simp at ho
  | cons b rest ih =>
    intro s s2 obs h o ho
    cases b
    · simp only [crun] at h
      by_cases he : s.intEnabled = true
      · rw [if_pos he] at h
        cases hc : crun s [] rest with
        | none => rw [hc] at h; simp at h
        | some p =>
          obtain ⟨s3, obs2⟩ := p
          rw [hc] at h
          simp only [Option.some.injEq, Prod.mk.injEq] at h
          rw [← h.2] at ho
          rcases List.mem_cons.mp ho with rfl | ho2
          · rfl
          · exact ih s s3 obs2 hc o ho2
      · rw [if_neg he] at h
        simp at h
    · simp [crun] at h

/-- While interrupts are disabled, a run positioned inside a write
block must finish the slot writes and the closing sei before any tick,
so every later observation lies on a checkpoint of the remaining
blocks, starting from the fully applied writes of the current block. -/
lemma crun_mid_obs (restBlocks : List (List (Nat × Nat)))
    (hIH : ∀ (sched : List Bool) (s s2 : CState) obs,
      crun s (blocksProgram restBlocks) sched = some (s2, obs) →
      ∀ o ∈ obs, o ∈ List.scanl applyWrites s.patterns restBlocks) :
    ∀ (ws : List (Nat × Nat)) (sched : List Bool) (s s2 : CState) obs,
      s.intEnabled = false →
      crun s ((ws.map fun w => MicroOp.writeSlot w.1 w.2) ++
        MicroOp.sei :: blocksProgram restBlocks) sched = some (s2, obs) →
      ∀ o ∈ obs, o ∈ List.scanl applyWrites (applyWrites s.patterns ws) restBlocks := by
  intro ws
  induction ws with
  | nil =>
    intro sched s s2 obs he h o ho
    cases sched with
    | nil =>
      simp only [crun, Option.some.injEq, Prod.mk.injEq] at h
      rw [← h.2] at ho
      simp at ho
    | cons b r =>
      cases b
      · simp [crun, he] at h
      · simp only [List.map_nil, List.nil_append, crun] at h
        have hm := hIH r (applyOp s MicroOp.sei) s2 obs h o ho
        simpa [applyOp, applyWrites] using hm
  | cons w ws ih =>
    intro sched s s2 obs he h o ho
    cases sched with
    | nil =>
      simp only [crun, Option.some.injEq, Prod.mk.injEq] at h
      rw [← h.2] at ho
      simp at ho
    | cons b r =>
      cases b
      · simp [crun, he] at h
      · simp only [List.map_cons, List.cons_append, crun] at h
        have hm := ih r (applyOp s (MicroOp.writeSlot w.1 w.2)) s2 obs
          (by simp [applyOp, he]) h o ho
        simpa [applyOp, applyWrites] using hm

/-- Inversion of a run starting with a tick: the tick requires enabled
interrupts, records the current display, and the run continues with the
same program and state. -/
lemma crun_tick_inv (s : CState) (prog : List MicroOp) (r : List Bool)
    (s2 : CState) (obs : List (List Nat))
    (h : crun s prog (false :: r) = some (s2, obs)) :
    ∃ obs2, obs = s.patterns :: obs2 ∧ crun s prog r = some (s2, obs2) := by
  cases prog with
  | nil =>
    simp only [crun] at h
    by_cases he : s.intEnabled = true
    · rw [if_pos he] at h
      cases hc : crun s [] r with
      | none => rw [hc] at h; simp at h
      | some p =>
        obtain ⟨s3, obs2⟩ := p
        rw [hc] at h
        simp only [Option.some.injEq, Prod.mk.injEq] at h
        obtain ⟨h1, h2⟩ := h
        subst h1
        exact ⟨obs2, h2.symm, rfl⟩
    · rw [if_neg he] at h
      simp at h
  | cons op p =>
    simp only [crun] at h
    by_cases he : s.intEnabled = true
    · rw [if_pos he] at h
      cases hc : crun s (op :: p) r with
      | none => rw [hc] at h; simp at h
      | some q =>
        obtain ⟨s3, obs2⟩ := q
        rw [hc] at h
        simp only [Option.some.injEq, Prod.mk.injEq] at h
        obtain ⟨h1, h2⟩ := h
        subst h1
        exact ⟨obs2, h2.symm, rfl⟩
    · rw [if_neg he] at h
      simp at h

/-- Main atomicity invariant: in every legal interleaving of a sequence
of interrupt-disabled write blocks with multiplex ticks, the display
observed at any tick is one of the checkpoints: the initial contents or
the contents after some complete prefix of the blocks; a torn, partially
written frame is never observable. -/
lemma crun_blocks_obs : ∀ (blocks : List (List (Nat × Nat))) (sched : List Bool)
    (s s2 : CState) obs,
    crun s (blocksProgram blocks) sched = some (s2, obs) →
    ∀ o ∈ obs, o ∈ List.scanl applyWrites s.patterns blocks := by
  intro blocks
  induction blocks with
  | nil =>
    intro sched s s2 obs h o ho
    simp only [blocksProgram] at h
    have := crun_nil_obs sched s s2 obs h o ho
    simp [this, List.scanl]
  | cons ws rest ih =>
    intro sched
    induction sched with
    | nil =>
      intro s s2 obs h o ho
      simp only [crun, Option.some.injEq, Prod.mk.injEq] at h
      rw [← h.2] at ho
      simp at ho
    | cons b r ihs =>
      intro s s2 obs h o ho
      cases b
      · obtain ⟨obs2, rfl, hc⟩ := crun_tick_inv s _ r s2 obs h
        rcases List.mem_cons.mp ho with rfl | ho2
        · rw [List.scanl_cons]
          exact List.mem_cons_self _ _
        · exact ihs s s2 obs2 hc o ho2
      · simp only [blocksProgram, blockOps, List.append_eq, List.cons_append,
          List.append_assoc, List.singleton_append, crun] at h
        have hm := crun_mid_obs rest ih ws r (applyOp s MicroOp.cli) s2 obs
          (by simp [applyOp]) h o ho
        rw [List.scanl_cons]
        refine List.mem_cons_of_mem _ ?_
        simpa [applyOp] using hm

/-- A list of exactly four elements is a four-element literal. -/
lemma exists_four (l : List Nat) (h : l.length = 4) :
    ∃ a b c d, l = [a, b, c, d] := by
  rcases l with - | ⟨a, l⟩
  · simp at h
  rcases l with - | ⟨b, l⟩
  · simp at h
  rcases l with - | ⟨c, l⟩
  · simp at h
  rcases l with - | ⟨d, l⟩
  · simp at h
  rcases l with - | ⟨e, l⟩
  · exact ⟨a, b, c, d, rfl⟩
  · simp at h

/-- Applying the four publish writes of a 4-pattern list to a 4-slot
display replaces it by that list. -/
lemma applyWrites_publish (p ps : List Nat) (hp : p.length = 4)
    (hps : ps.length = 4) : applyWrites p (publishWrites ps) = ps := by
  obtain ⟨a, b, c, d, rfl⟩ := exists_four p hp
  obtain ⟨x, y, z, w, rfl⟩ := exists_four ps hps
  rfl

/-- Observations of a run over a single publish block: the previous
frame or the published frame, nothing else. -/
lemma crun_single_block_obs (st : CState) (sched : List Bool) (s2 : CState)
    (obs : List (List Nat)) (P : List Nat) (hlen : st.patterns.length = 4)
    (hP : P.length = 4)
    (h : crun st (blocksProgram [publishWrites P]) sched = some (s2, obs)) :
    ∀ o ∈ obs, o = st.patterns ∨ o = P := by
  intro o ho
  have hm := crun_blocks_obs [publishWrites P] sched st s2 obs h o ho
  simp only [List.scanl] at hm
  rw [applyWrites_publish st.patterns P hlen hP] at hm
  simpa using hm

/-- Observations of a run over a publish block followed by a separate
single-slot overwrite block: the previous frame, the intermediate
published frame, or the final frame. -/
lemma crun_two_block_obs (st : CState) (sched : List Bool) (s2 : CState)
    (obs : List (List Nat)) (P : List Nat) (m : Nat)
    (hlen : st.patterns.length = 4) (hP : P.length = 4)
    (h : crun st (blocksProgram [publishWrites P, [(0, m)]]) sched = some (s2, obs)) :
    ∀ o ∈ obs, o = st.patterns ∨ o = P ∨ o = P.set 0 m := by
  intro o ho
  have hm := crun_blocks_obs [publishWrites P, [(0, m)]] sched st s2 obs h o ho
  simp only [List.scanl] at hm
  rw [applyWrites_publish st.patterns P hlen hP] at hm
  simpa [applyWrites] using hm

/-- The pattern list built by setText always has exactly 4 entries. -/
lemma setTextPatterns_length (t : List Char) : (setTextPatterns t).length = 4 := by
  simp only [setTextPatterns, List.length_map, List.length_take,
    List.length_append, List.length_cons, List.length_nil]
  omega

/-- C2 counterexample: interleaving one renderer call, setFloat at
-12.5, with multiplex ticks, the schedule that ticks between the two
interrupt-disabled blocks of the call observes the frame
[252, 96, 219, 182]: the magnitude digits before the minus overwrite.
That frame differs from the previous display contents [0, 0, 0, 0] and
from the completed output [2, 96, 219, 182] of the call itself, so the
slots read at that tick do not all belong to one logical update. -/
theorem c2_counterexample :
    crun ⟨[0, 0, 0, 0], true⟩
        (setFloatProgram true (FloatVal.finite ((-25 : ℚ) / 2)))
        [true, true, true, true, true, true, false, true, true, true] =
      some (⟨[2, 96, 219, 182], true⟩, [[252, 96, 219, 182]]) ∧
    (setFloat initState (FloatVal.finite ((-25 : ℚ) / 2))).2.patterns =
      [2, 96, 219, 182] ∧
    initState.patterns = [0, 0, 0, 0] ∧
    ([252, 96, 219, 182] : List Nat) ≠ [0, 0, 0, 0] ∧
    ([252, 96, 219, 182] : List Nat) ≠ [2, 96, 219, 182] := by
  have hn := negMagNum_at_minus_half25
  have hprog : setFloatProgram true (FloatVal.finite ((-25 : ℚ) / 2)) =
      blocksProgram [publishWrites [252, 96, 219, 182], [(0, 2)]] := by
    simp only [setFloatProgram, if_pos (show ((-25 : ℚ) / 2) < 0 by norm_num),
      if_neg (show ¬ ((-25 : ℚ) / 2) ≤ -100 by norm_num), hn]
    decide
  have hsf : (setFloat initState (FloatVal.finite ((-25 : ℚ) / 2))).2.patterns =
      [2, 96, 219, 182] := by
    simp only [setFloat, if_pos (show ((-25 : ℚ) / 2) < 0 by norm_num),
      if_neg (show ¬ ((-25 : ℚ) / 2) ≤ -100 by norm_num), hn]
    decide
  refine ⟨?_, hsf, rfl, by decide, by decide⟩
  rw [hprog]
  decide

/-- C2 amended: setNumber, setText, setSegments and setHundredths each
publish their four slots in a single interrupt-disabled block, so in
every interleaving with multiplex ticks a tick observes either the
previous display or the complete new output, never a torn mixture;
setFloat on a negative value in (-100, 0) publishes in two
interrupt-disabled blocks, so a tick can additionally observe the
intermediate frame of magnitude digits before the minus overwrite,
though every observable frame is itself a complete atomic publish. -/
theorem c2_amended_atomic_publish (st : CState) (sched : List Bool) (s2 : CState)
    (obs : List (List Nat)) (hlen : st.patterns.length = 4) :
    (∀ lz v dp, crun st (setNumberProgram lz v dp) sched = some (s2, obs) →
      ∀ o ∈ obs, o = st.patterns ∨ o = setNumberPatterns lz v dp) ∧
    (∀ t, t.length ≤ 4 →
      crun st (setTextProgram (some t)) sched = some (s2, obs) →
      ∀ o ∈ obs, o = st.patterns ∨ o = setTextPatterns t) ∧
    (∀ l, crun st (setSegmentsProgram (some l)) sched = some (s2, obs) →
      ∀ o ∈ obs, o = st.patterns ∨ o = setSegmentsPatterns l) ∧
    (∀ lz h dp, crun st (setHundredthsProgram lz h dp) sched = some (s2, obs) →
      ∀ o ∈ obs, o = st.patterns ∨
        o = setNumberPatterns lz (if 9999 < h then 9999 else h)
              (if dp < -1 ∨ 3 < dp then 2 else dp)) ∧
    (∀ lz q, q < 0 → -100 < q →
      crun st (setFloatProgram lz (FloatVal.finite q)) sched = some (s2, obs) →
      ∀ o ∈ obs, o = st.patterns ∨
        o = setNumberPatterns lz (negMagNum q).1 (negMagNum q).2 ∨
        o = (setNumberPatterns lz (negMagNum q).1 (negMagNum q).2).set 0
              (getPattern '-')) := by
  refine ⟨?_, ?_, ?_, ?_, ?_⟩
  · intro lz v dp h
    exact crun_single_block_obs st sched s2 obs _ hlen
      (setNumberPatterns_length lz v dp) h
  · intro t ht h
    have hm : t.length % 256 = t.length := Nat.mod_eq_of_lt (by omega)
    simp only [setTextProgram, hm, List.take_length] at h
    rw [if_neg (by omega : ¬ 4 < t.length)] at h
    exact crun_single_block_obs st sched s2 obs _ hlen (setTextPatterns_length t) h
  · intro l h
    exact crun_single_block_obs st sched s2 obs _ hlen rfl h
  · intro lz hh dp h
    exact crun_single_block_obs st sched s2 obs _ hlen
      (setNumberPatterns_length lz _ _) h
  · intro lz q hq h100 h
    simp only [setFloatProgram, if_pos hq, if_neg (not_le.mpr h100)] at h
    exact crun_two_block_obs st sched s2 obs _ _ hlen
      (setNumberPatterns_length lz _ _) h

/-- Concrete instance of the amended C2: a tick scheduled before the
publish block of setNumber 1234 observes the previous blank frame. -/
theorem c2_witness :
    ([0, 0, 0, 0] : List Nat) = [0, 0, 0, 0] ∨
    ([0, 0, 0, 0] : List Nat) = setNumberPatterns true 1234 (-1) := by
  refine (c2_amended_atomic_publish ⟨[0, 0, 0, 0], true⟩ [false]
    ⟨[0, 0, 0, 0], true⟩ [[0, 0, 0, 0]] rfl).1 true 1234 (-1) ?_ [0, 0, 0, 0]
    (by simp)
  decide

end SSFD
